import Mathlib

/-!
# Verification of the SNGP training script orchestration logic

Shallow embedding of the orchestration logic of
`baselines/jft/sngp.py` (ViT-SNGP on JFT-300M): the gradient
accumulator, the resume-precedence decision, the startup configuration
checks, the checkpoint-write serialization at checkpoint boundaries,
the weight-decay step, and the validation evaluation loop.

Numeric values are modelled as rationals (`ℚ`); gradients as elements
of an arbitrary `ℚ`-module (a leaf-wise model of a pytree of arrays);
Python exceptions as `Option`/`Except` results.
-/

/-! ## Basic building blocks -/

/-- `jax.lax.dynamic_slice` on a list: `len` elements starting at `start`
(the slice `l[start : start+len]`). -/
def sliceAt {α : Type} (l : List α) (start len : ℕ) : List α :=
  (l.drop start).take len

/-- Fuel-based runner for `jax.lax.fori_loop`: applies `body` at indices
`i, i+1, ..., i+fuel-1`, threading the accumulator. -/
def foriLoopAux {α : Type} (body : ℕ → α → α) : ℕ → ℕ → α → α
  | 0, _, a => a
  | fuel + 1, i, a => foriLoopAux body fuel (i + 1) (body i a)

/-- `jax.lax.fori_loop lower upper body init`: applies `body` at
`lower, ..., upper - 1`. -/
def foriLoop {α : Type} (lower upper : ℕ) (body : ℕ → α → α) (init : α) : α :=
  foriLoopAux body (upper - lower) lower init

/-- Python truthiness of an optional integer config entry
(`config.get(...)`): `None` and `0` are falsy. -/
def truthyNat : Option ℕ → Bool
  | none => false
  | some n => n != 0

/-- Python truthiness of an optional string config entry: `None` and the
empty string are falsy. -/
def truthyStr : Option String → Bool
  | none => false
  | some s => s != ""

/-! ## Gradient accumulator (`accumulate_gradient_with_states`)

`loss_and_grad_fn params states images labels` returns
`((loss, states), grad)`, mirroring the function handled by
`accumulate_gradient_with_states` in `sngp.py`.  The gradient lives in
an arbitrary `ℚ`-module `G`: `jax.tree_multimap (+)` is `+` and
`jax.tree_map (· / accum_steps)` is scalar multiplication by
`(accum_steps : ℚ)⁻¹`, applied leaf-wise. -/

/-- Embedding of `accumulate_gradient_with_states` in `sngp.py`
(lines 59–94).  `accum_steps` is the optional
`config.get('grad_accum_steps')`; the Python guard
`if accum_steps and accum_steps > 1` selects the accumulation path.
The failed `assert` on indivisible batch sizes is modelled by `none`. -/
def accumulate_gradient_with_states {P S I L G : Type}
    [AddCommMonoid G] [Module ℚ G]
    (loss_and_grad_fn : P → S → List I → List L → (ℚ × S) × G)
    (params : P) (states : S) (images : List I) (labels : List L)
    (accum_steps : Option ℕ) : Option ((ℚ × S) × G) :=
  match accum_steps with
  | some n =>
    if 1 < n then
      if images.length % n = 0 then
        let step_size := images.length / n
        -- Run the first step.
        let first := loss_and_grad_fn params states (images.take step_size)
          (labels.take step_size)
        let init : ℚ × S × G := (first.1.1, first.1.2, first.2)
        -- Run the rest of the steps.
        let body : ℕ → ℚ × S × G → ℚ × S × G := fun i lsg =>
          let r := loss_and_grad_fn params lsg.2.1
            (sliceAt images (i * step_size) step_size)
            (sliceAt labels (i * step_size) step_size)
          (lsg.1 + r.1.1, r.1.2, lsg.2.2 + r.2)
        let out := foriLoop 1 n body init
        some ((out.1 / (n : ℚ), out.2.1), ((n : ℚ))⁻¹ • out.2.2)
      else
        none
    else
      some (loss_and_grad_fn params states images labels)
  | none => some (loss_and_grad_fn params states images labels)

/-- The sequentially threaded auxiliary state after the first `j`
sub-batches of size `step_size`: sub-batch `0` is evaluated from the
initial `states`, and each later sub-batch call receives the state
produced by the previous call. -/
def subBatchState {P S I L G : Type}
    (loss_and_grad_fn : P → S → List I → List L → (ℚ × S) × G)
    (params : P) (states : S) (images : List I) (labels : List L)
    (step_size : ℕ) : ℕ → S
  | 0 => states
  | j + 1 =>
    (loss_and_grad_fn params
      (subBatchState loss_and_grad_fn params states images labels step_size j)
      (sliceAt images (j * step_size) step_size)
      (sliceAt labels (j * step_size) step_size)).1.2

/-- Reference recursion for the accumulation loop: the accumulated
(loss-sum, threaded state, gradient-sum) after sub-batches `0..j`. -/
def subBatchAccum {P S I L G : Type} [AddCommMonoid G]
    (loss_and_grad_fn : P → S → List I → List L → (ℚ × S) × G)
    (params : P) (states : S) (images : List I) (labels : List L)
    (step_size : ℕ) : ℕ → ℚ × S × G
  | 0 =>
    let r := loss_and_grad_fn params states (sliceAt images 0 step_size)
      (sliceAt labels 0 step_size)
    (r.1.1, r.1.2, r.2)
  | j + 1 =>
    let prev := subBatchAccum loss_and_grad_fn params states images labels
      step_size j
    let r := loss_and_grad_fn params prev.2.1
      (sliceAt images ((j + 1) * step_size) step_size)
      (sliceAt labels ((j + 1) * step_size) step_size)
    (prev.1 + r.1.1, r.1.2, prev.2.2 + r.2)

lemma foriLoopAux_succ_right {α : Type} (body : ℕ → α → α) :
    ∀ (fuel i : ℕ) (a : α),
      foriLoopAux body (fuel + 1) i a = body (i + fuel) (foriLoopAux body fuel i a) := by
  intro fuel
  induction fuel with
  | zero => intro i a; simp [foriLoopAux]
  | succ k ih =>
    intro i a
    show foriLoopAux body (k + 1) (i + 1) (body i a) = _
    rw [ih (i + 1) (body i a)]
    have : i + 1 + k = i + (k + 1) := by omega
    rw [this]
    rfl

lemma foriLoop_eq_subBatchAccum {P S I L G : Type} [AddCommMonoid G]
    (f : P → S → List I → List L → (ℚ × S) × G)
    (params : P) (states : S) (images : List I) (labels : List L)
    (k : ℕ) :
    ∀ (m : ℕ),
      foriLoopAux
        (fun i lsg =>
          let r := f params lsg.2.1 (sliceAt images (i * k) k)
            (sliceAt labels (i * k) k)
          (lsg.1 + r.1.1, r.1.2, lsg.2.2 + r.2)) m 1
        (subBatchAccum f params states images labels k 0)
      = subBatchAccum f params states images labels k m := by
  intro m
  induction m with
  | zero => rfl
  | succ j ih =>
    rw [foriLoopAux_succ_right]
    rw [show 1 + j = j + 1 from Nat.add_comm 1 j]
    rw [ih]
    rfl

/-- The accumulated state after sub-batches `0..j` is the sequentially
threaded state through `j+1` sub-batches. -/
lemma subBatchAccum_state {P S I L G : Type} [AddCommMonoid G]
    (f : P → S → List I → List L → (ℚ × S) × G)
    (params : P) (states : S) (images : List I) (labels : List L)
    (k : ℕ) :
    ∀ (j : ℕ),
      (subBatchAccum f params states images labels k j).2.1
        = subBatchState f params states images labels k (j + 1) := by
  intro j
  induction j with
  | zero => simp [subBatchAccum, subBatchState, sliceAt]
  | succ j ih => simp [subBatchAccum, subBatchState, ih]

/-- Unfolding of the accumulation path: for `1 < n` and a divisible
batch, the result is the reference recursion over `n` sub-batches,
divided by `n` in the loss and gradient only. -/
lemma accumulate_eq_subBatchAccum {P S I L G : Type}
    [AddCommMonoid G] [Module ℚ G]
    (f : P → S → List I → List L → (ℚ × S) × G)
    (params : P) (states : S) (images : List I) (labels : List L)
    (n : ℕ) (hn : 1 < n) (hdvd : images.length % n = 0) :
    accumulate_gradient_with_states f params states images labels (some n)
      = some
        (((subBatchAccum f params states images labels (images.length / n) (n - 1)).1 / (n : ℚ),
          (subBatchAccum f params states images labels (images.length / n) (n - 1)).2.1),
         ((n : ℚ))⁻¹ • (subBatchAccum f params states images labels (images.length / n) (n - 1)).2.2) := by
  have hfl := foriLoop_eq_subBatchAccum f params states images labels
    (images.length / n) (n - 1)
  conv at hfl =>
    lhs
    rw [show subBatchAccum f params states images labels (images.length / n) 0
        = ((f params states (sliceAt images 0 (images.length / n))
            (sliceAt labels 0 (images.length / n))).1.1,
           (f params states (sliceAt images 0 (images.length / n))
            (sliceAt labels 0 (images.length / n))).1.2,
           (f params states (sliceAt images 0 (images.length / n))
            (sliceAt labels 0 (images.length / n))).2) from rfl]
  simp only [accumulate_gradient_with_states, if_pos hn, if_pos hdvd, foriLoop,
    sliceAt, List.drop_zero] at hfl ⊢
  rw [hfl]

/-! ## Per-example decomposition of the loss-and-gradient function

The spec's refinement property (accumulation factor `N` versus the
`N = 1` full-batch path) holds for loss-and-gradient functions that
compute a *batch mean* of per-example quantities independent of the
auxiliary state — which is how the training losses in `sngp.py`
(`sigmoid_xent` with its default mean reduction, and the mean gradient)
behave.  `exampleSum g` is the sum of `g` over the example/label pairs
of a batch. -/
def exampleSum {I L M : Type} [AddCommMonoid M] (g : I → L → M)
    (images : List I) (labels : List L) : M :=
  ((images.zip labels).map (fun e => g e.1 e.2)).sum

lemma sliceAt_zip {α β : Type} (a : List α) (b : List β) (s k : ℕ) :
    (sliceAt a s k).zip (sliceAt b s k) = sliceAt (a.zip b) s k := by
  simp only [sliceAt, List.zip, ← List.take_zipWith, ← List.drop_zipWith]

lemma sliceAt_length {α : Type} (l : List α) (s k : ℕ) (h : s + k ≤ l.length) :
    (sliceAt l s k).length = k := by
  simp only [sliceAt, List.length_take, List.length_drop]
  omega

/-- Partition of a list sum into `n` consecutive chunk sums of size `k`. -/
lemma sum_chunks {α M : Type} [AddCommMonoid M] (g : α → M) (k : ℕ) :
    ∀ (n : ℕ) (l : List α), l.length = n * k →
      ∑ i in Finset.range n, ((sliceAt l (i * k) k).map g).sum = (l.map g).sum := by
  intro n
  induction n with
  | zero =>
    intro l hl
    simp only [Nat.zero_mul] at hl
    rw [List.length_eq_zero] at hl
    subst hl
    simp
  | succ n ih =>
    intro l hl
    have hdropl : (l.drop k).length = n * k := by
      rw [List.length_drop, hl, Nat.succ_mul, Nat.add_sub_cancel]
    have hchunk : ∀ i : ℕ, sliceAt l ((i + 1) * k) k = sliceAt (l.drop k) (i * k) k := by
      intro i
      simp only [sliceAt, List.drop_drop]
      rw [show (i + 1) * k = k + i * k from by ring]
    rw [Finset.sum_range_succ' (fun i => ((sliceAt l (i * k) k).map g).sum) n]
    simp only [hchunk]
    rw [ih (l.drop k) hdropl]
    have h0 : sliceAt l (0 * k) k = l.take k := by
      simp [sliceAt]
    rw [h0]
    conv_rhs => rw [← List.take_append_drop k l]
    rw [List.map_append, List.sum_append]
    exact add_comm _ _

/-- Loop invariant for the accumulation recursion: if the
loss-and-grad function is a state-independent batch mean of
per-example quantities, the accumulated loss and gradient after
sub-batches `0..j` are the chunk-sum totals divided by the sub-batch
size. -/
lemma subBatchAccum_mean {P S I L G : Type} [AddCommMonoid G] [Module ℚ G]
    (f : P → S → List I → List L → (ℚ × S) × G)
    (exLoss : P → I → L → ℚ) (exGrad : P → I → L → G)
    (Hf : ∀ (p : P) (s : S) (imgs : List I) (lbls : List L),
      imgs.length = lbls.length → 0 < imgs.length →
        (f p s imgs lbls).1.1 = exampleSum (exLoss p) imgs lbls / imgs.length
        ∧ (f p s imgs lbls).2
            = ((imgs.length : ℚ))⁻¹ • exampleSum (exGrad p) imgs lbls)
    (params : P) (states : S) (images : List I) (labels : List L)
    (k : ℕ) (hk : 0 < k) (hlen : labels.length = images.length) :
    ∀ (j : ℕ), (j + 1) * k ≤ images.length →
      (subBatchAccum f params states images labels k j).1
        = (∑ i in Finset.range (j + 1),
            ((sliceAt (images.zip labels) (i * k) k).map
              (fun e => exLoss params e.1 e.2)).sum) / (k : ℚ)
      ∧ (subBatchAccum f params states images labels k j).2.2
        = ((k : ℚ))⁻¹ • ∑ i in Finset.range (j + 1),
            ((sliceAt (images.zip labels) (i * k) k).map
              (fun e => exGrad params e.1 e.2)).sum := by
  intro j
  induction j with
  | zero =>
    intro hle
    have hleI : 0 + k ≤ images.length := by omega
    have hleL : 0 + k ≤ labels.length := by omega
    have hlenI := sliceAt_length images 0 k hleI
    have hlenL := sliceAt_length labels 0 k hleL
    have heq : (sliceAt images 0 k).length = (sliceAt labels 0 k).length := by
      rw [hlenI, hlenL]
    have hposk : 0 < (sliceAt images 0 k).length := by rw [hlenI]; exact hk
    have h := Hf params states (sliceAt images 0 k) (sliceAt labels 0 k) heq hposk
    constructor
    · show (f params states (sliceAt images 0 k) (sliceAt labels 0 k)).1.1 = _
      rw [h.1, hlenI]
      simp [exampleSum, sliceAt_zip, Finset.sum_range_one]
    · show (f params states (sliceAt images 0 k) (sliceAt labels 0 k)).2 = _
      rw [h.2, hlenI]
      simp [exampleSum, sliceAt_zip, Finset.sum_range_one]
  | succ j ih =>
    intro hle
    have hle' : (j + 1) * k ≤ images.length := by
      calc (j + 1) * k ≤ (j + 1 + 1) * k := Nat.mul_le_mul_right k (by omega)
      _ ≤ images.length := hle
    have hih := ih hle'
    have hleI : (j + 1) * k + k ≤ images.length := by
      have : (j + 1 + 1) * k = (j + 1) * k + k := by ring
      omega
    have hleL : (j + 1) * k + k ≤ labels.length := by omega
    have hlenI := sliceAt_length images ((j + 1) * k) k hleI
    have hlenL := sliceAt_length labels ((j + 1) * k) k hleL
    have heq : (sliceAt images ((j + 1) * k) k).length
        = (sliceAt labels ((j + 1) * k) k).length := by rw [hlenI, hlenL]
    have hposk : 0 < (sliceAt images ((j + 1) * k) k).length := by
      rw [hlenI]; exact hk
    have h := Hf params
      (subBatchAccum f params states images labels k j).2.1
      (sliceAt images ((j + 1) * k) k) (sliceAt labels ((j + 1) * k) k) heq hposk
    constructor
    · show (subBatchAccum f params states images labels k j).1
          + (f params (subBatchAccum f params states images labels k j).2.1
              (sliceAt images ((j + 1) * k) k)
              (sliceAt labels ((j + 1) * k) k)).1.1 = _
      rw [hih.1, h.1, hlenI]
      rw [Finset.sum_range_succ
        (fun i => ((sliceAt (images.zip labels) (i * k) k).map
          (fun e => exLoss params e.1 e.2)).sum) (j + 1)]
      rw [add_div]
      simp [exampleSum, sliceAt_zip]
    · show (subBatchAccum f params states images labels k j).2.2
          + (f params (subBatchAccum f params states images labels k j).2.1
              (sliceAt images ((j + 1) * k) k)
              (sliceAt labels ((j + 1) * k) k)).2 = _
      rw [hih.2, h.2, hlenI]
      rw [Finset.sum_range_succ
        (fun i => ((sliceAt (images.zip labels) (i * k) k).map
          (fun e => exGrad params e.1 e.2)).sum) (j + 1)]
      rw [smul_add]
      simp [exampleSum, sliceAt_zip]

/-- **C1**: For every accumulation factor `N` dividing the batch size
evenly, running `accumulate_gradient_with_states` with factor `N`
produces a loss and gradient equal to the `N = 1` full-batch path
(exactly, in the rational model): the `N` sub-batch losses and
gradients are summed, the sums are divided by `N`, and every sub-batch
call uses the same, un-updated `params`.  The hypothesis `Hf` states
that the loss-and-grad function is a batch mean of per-example
quantities, independent of the threaded auxiliary state. -/
theorem claim_C1_accum_matches_full_batch {P S I L G : Type}
    [AddCommMonoid G] [Module ℚ G]
    (f : P → S → List I → List L → (ℚ × S) × G)
    (exLoss : P → I → L → ℚ) (exGrad : P → I → L → G)
    (Hf : ∀ (p : P) (s : S) (imgs : List I) (lbls : List L),
      imgs.length = lbls.length → 0 < imgs.length →
        (f p s imgs lbls).1.1 = exampleSum (exLoss p) imgs lbls / imgs.length
        ∧ (f p s imgs lbls).2
            = ((imgs.length : ℚ))⁻¹ • exampleSum (exGrad p) imgs lbls)
    (params : P) (states : S) (images : List I) (labels : List L)
    (n : ℕ) (hn : 0 < n) (hdvd : n ∣ images.length)
    (hlen : labels.length = images.length) (hpos : 0 < images.length) :
    ∃ rN r1,
      accumulate_gradient_with_states f params states images labels (some n) = some rN
      ∧ accumulate_gradient_with_states f params states images labels (some 1) = some r1
      ∧ rN.1.1 = r1.1.1 ∧ rN.2 = r1.2 := by
  have h1 : accumulate_gradient_with_states f params states images labels (some 1)
      = some (f params states images labels) := by
    simp [accumulate_gradient_with_states]
  have hfull := Hf params states images labels hlen.symm hpos
  by_cases hn1 : 1 < n
  · have hB : images.length = n * (images.length / n) := (Nat.mul_div_cancel' hdvd).symm
    set k := images.length / n with hk_def
    have hkpos : 0 < k := by
      rcases Nat.eq_zero_or_pos k with hk0 | hk0
      · rw [hk0, Nat.mul_zero] at hB; omega
      · exact hk0
    have hmod : images.length % n = 0 := (Nat.dvd_iff_mod_eq_zero).mp hdvd
    have hacc := accumulate_eq_subBatchAccum f params states images labels n hn1 hmod
    have hrange : n - 1 + 1 = n := by omega
    have hjk : (n - 1 + 1) * k ≤ images.length := by
      rw [hrange]; exact Nat.le_of_eq hB.symm
    have hmean := subBatchAccum_mean f exLoss exGrad Hf params states images labels
      k hkpos hlen (n - 1) hjk
    rw [hrange] at hmean
    have hzlen : (images.zip labels).length = n * k := by
      rw [List.length_zip, hlen, min_self]; exact hB
    have hsumL := sum_chunks (fun e : I × L => exLoss params e.1 e.2) k n
      (images.zip labels) hzlen
    have hsumG := sum_chunks (fun e : I × L => exGrad params e.1 e.2) k n
      (images.zip labels) hzlen
    refine ⟨_, _, hacc, h1, ?_, ?_⟩
    · show (subBatchAccum f params states images labels k (n - 1)).1 / (n : ℚ)
        = (f params states images labels).1.1
      rw [hmean.1, hfull.1, hsumL]
      show ((images.zip labels).map (fun e => exLoss params e.1 e.2)).sum / (k : ℚ) / (n : ℚ)
        = exampleSum (exLoss params) images labels / (images.length : ℚ)
      rw [div_div]
      rw [show exampleSum (exLoss params) images labels
        = ((images.zip labels).map (fun e => exLoss params e.1 e.2)).sum from rfl]
      congr 1
      rw [hB]
      push_cast
      ring
    · show ((n : ℚ))⁻¹ • (subBatchAccum f params states images labels k (n - 1)).2.2
        = (f params states images labels).2
      rw [hmean.2, hfull.2, smul_smul, hsumG]
      rw [show exampleSum (exGrad params) images labels
        = ((images.zip labels).map (fun e => exGrad params e.1 e.2)).sum from rfl]
      congr 1
      rw [hB]
      push_cast
      rw [mul_inv]
  · have hne : n = 1 := by omega
    subst hne
    exact ⟨_, _, h1, h1, rfl, rfl⟩

theorem claim_C1_accum_matches_full_batch_witness :
    ∃ rN r1,
      accumulate_gradient_with_states
        (fun (_ : ℚ) (s : ℚ) (imgs lbls : List ℚ) =>
          ((exampleSum (fun i _ => i) imgs lbls / (imgs.length : ℚ), s + 1),
           ((imgs.length : ℚ))⁻¹ • exampleSum (fun _ l => l) imgs lbls))
        0 0 [1, 2, 3, 4] [5, 6, 7, 8] (some 2) = some rN
      ∧ accumulate_gradient_with_states
        (fun (_ : ℚ) (s : ℚ) (imgs lbls : List ℚ) =>
          ((exampleSum (fun i _ => i) imgs lbls / (imgs.length : ℚ), s + 1),
           ((imgs.length : ℚ))⁻¹ • exampleSum (fun _ l => l) imgs lbls))
        0 0 [1, 2, 3, 4] [5, 6, 7, 8] (some 1) = some r1
      ∧ rN.1.1 = r1.1.1 ∧ rN.2 = r1.2 :=
  claim_C1_accum_matches_full_batch _
    (fun _ i _ => i) (fun _ _ l => l)
    (fun _ _ _ _ _ _ => ⟨rfl, rfl⟩)
    0 0 [1, 2, 3, 4] [5, 6, 7, 8] 2
    (by decide) (by decide) (by decide) (by decide)

/-- **C8**: with accumulation factor `n > 1`, the auxiliary state is
threaded sequentially through the sub-batches (each call receives the
state produced by the previous one), and the returned state is exactly
the state after the last sub-batch — unlike the loss and gradient it is
not divided by `n` (`jax.tree_map (· / accum_steps)` is applied to
`(l, g)` only, not to `s`). -/
theorem claim_C8_state_threaded_sequentially {P S I L G : Type}
    [AddCommMonoid G] [Module ℚ G]
    (f : P → S → List I → List L → (ℚ × S) × G)
    (params : P) (states : S) (images : List I) (labels : List L)
    (n : ℕ) (hn : 1 < n) (hdvd : images.length % n = 0) :
    ∃ l g,
      accumulate_gradient_with_states f params states images labels (some n)
        = some ((l, subBatchState f params states images labels
            (images.length / n) n), g) := by
  have hacc := accumulate_eq_subBatchAccum f params states images labels n hn hdvd
  have hst := subBatchAccum_state f params states images labels
    (images.length / n) (n - 1)
  rw [show n - 1 + 1 = n from by omega] at hst
  rw [← hst]
  exact ⟨_, _, hacc⟩

theorem claim_C8_state_threaded_sequentially_witness :
    ∃ l g,
      accumulate_gradient_with_states
        (fun (_ : ℚ) (s : ℚ) (imgs _lbls : List ℚ) => ((imgs.sum, s + 1), (0 : ℚ)))
        0 0 [1, 2, 3, 4] [5, 6, 7, 8] (some 2)
        = some ((l, subBatchState
            (fun (_ : ℚ) (s : ℚ) (imgs _lbls : List ℚ) => ((imgs.sum, s + 1), (0 : ℚ)))
            0 0 [1, 2, 3, 4] [5, 6, 7, 8] 2 2), g) :=
  claim_C8_state_threaded_sequentially _ 0 0 [1, 2, 3, 4] [5, 6, 7, 8] 2
    (by decide) (by decide)

/-! ## Resume-precedence decision (`sngp.py` lines 133–136 and 393–426)

`save_checkpoint_path` is constructed only when
`config.get('checkpoint_steps')` is truthy (lines 133–136); the resume
decision (lines 398–418) then checks, in order: an existing checkpoint
at the save path, `config.get('resume')`, `config.get('model_init')`
(which raises `ValueError` — unsupported), and otherwise falls through
to fresh initialization.  `fileExists` models `gfile.exists`, and
`fillinFn` models the externally defined `fillin` placeholder
substitution. -/

structure ResumeConfig where
  checkpoint_steps : Option ℕ
  resume : Option String
  model_init : Option String

inductive InitDecision where
  | resumeFrom (path : String)
  | fatalModelInit
  | trainFromScratch
deriving DecidableEq

/-- Lines 133–136: the active output-path checkpoint file, constructed
only when checkpointing is enabled. -/
def save_checkpoint_path (cfg : ResumeConfig) (output_dir : String) : Option String :=
  if truthyNat cfg.checkpoint_steps then some (output_dir ++ "/checkpoint.npz")
  else none

/-- Lines 398–402: `resume_checkpoint_path` after the if/elif chain. -/
def resume_checkpoint_path (cfg : ResumeConfig) (output_dir : String)
    (fileExists : String → Bool) (fillinFn : String → String) : Option String :=
  match save_checkpoint_path cfg output_dir with
  | some p =>
    if fileExists p then some p
    else if truthyStr cfg.resume then some (fillinFn (cfg.resume.getD "")) else none
  | none =>
    if truthyStr cfg.resume then some (fillinFn (cfg.resume.getD "")) else none

/-- Lines 403–426: the initialization decision taken from
`resume_checkpoint_path` (Python truthiness: an empty path string is
falsy) and `config.get('model_init')`; reaching the `model_init` branch
raises `ValueError` unconditionally. -/
def decideInit (cfg : ResumeConfig) (output_dir : String)
    (fileExists : String → Bool) (fillinFn : String → String) : InitDecision :=
  match resume_checkpoint_path cfg output_dir fileExists fillinFn with
  | some p =>
    if p != "" then InitDecision.resumeFrom p
    else if truthyStr cfg.model_init then InitDecision.fatalModelInit
    else InitDecision.trainFromScratch
  | none =>
    if truthyStr cfg.model_init then InitDecision.fatalModelInit
    else InitDecision.trainFromScratch

lemma output_ckpt_path_ne_empty (output_dir : String) :
    (output_dir ++ "/checkpoint.npz") ≠ "" := by
  intro h
  have hlen := congrArg String.length h
  rw [String.length_append] at hlen
  rw [show ("/checkpoint.npz" : String).length = 15 from rfl] at hlen
  rw [show ("" : String).length = 0 from rfl] at hlen
  omega

lemma rcp_output_wins (cfg : ResumeConfig) (od : String)
    (fe : String → Bool) (fi : String → String)
    (h1 : truthyNat cfg.checkpoint_steps = true)
    (h2 : fe (od ++ "/checkpoint.npz") = true) :
    resume_checkpoint_path cfg od fe fi = some (od ++ "/checkpoint.npz") := by
  simp [resume_checkpoint_path, save_checkpoint_path, h1, h2]

lemma rcp_resume_fallback (cfg : ResumeConfig) (od : String)
    (fe : String → Bool) (fi : String → String)
    (h1 : truthyNat cfg.checkpoint_steps = false ∨ fe (od ++ "/checkpoint.npz") = false)
    (h2 : truthyStr cfg.resume = true) :
    resume_checkpoint_path cfg od fe fi = some (fi (cfg.resume.getD "")) := by
  rcases h1 with h | h
  · simp [resume_checkpoint_path, save_checkpoint_path, h, h2]
  · by_cases hc : truthyNat cfg.checkpoint_steps = true
    · simp [resume_checkpoint_path, save_checkpoint_path, hc, h, h2]
    · rw [Bool.not_eq_true] at hc
      simp [resume_checkpoint_path, save_checkpoint_path, hc, h2]

lemma rcp_none (cfg : ResumeConfig) (od : String)
    (fe : String → Bool) (fi : String → String)
    (h1 : truthyNat cfg.checkpoint_steps = false ∨ fe (od ++ "/checkpoint.npz") = false)
    (h2 : truthyStr cfg.resume = false) :
    resume_checkpoint_path cfg od fe fi = none := by
  rcases h1 with h | h
  · simp [resume_checkpoint_path, save_checkpoint_path, h, h2]
  · by_cases hc : truthyNat cfg.checkpoint_steps = true
    · simp [resume_checkpoint_path, save_checkpoint_path, hc, h, h2]
    · rw [Bool.not_eq_true] at hc
      simp [resume_checkpoint_path, save_checkpoint_path, hc, h2]

/-- **C2**: resume initialization is first-match-wins: (a) a checkpoint
already existing at the active output path is resumed — in particular
it beats a configured resume path; (b) otherwise a configured resume
path is resumed; (c) otherwise a configured initialization source
model (`model_init`) fails fatally (unsupported); (d) otherwise
training initializes fresh. -/
theorem claim_C2_resume_precedence (cfg : ResumeConfig) (output_dir : String)
    (fileExists : String → Bool) (fillinFn : String → String) :
    (truthyNat cfg.checkpoint_steps = true →
      fileExists (output_dir ++ "/checkpoint.npz") = true →
      decideInit cfg output_dir fileExists fillinFn
        = InitDecision.resumeFrom (output_dir ++ "/checkpoint.npz"))
    ∧ ((truthyNat cfg.checkpoint_steps = false ∨
          fileExists (output_dir ++ "/checkpoint.npz") = false) →
        truthyStr cfg.resume = true →
        fillinFn (cfg.resume.getD "") ≠ "" →
        decideInit cfg output_dir fileExists fillinFn
          = InitDecision.resumeFrom (fillinFn (cfg.resume.getD "")))
    ∧ ((truthyNat cfg.checkpoint_steps = false ∨
          fileExists (output_dir ++ "/checkpoint.npz") = false) →
        truthyStr cfg.resume = false →
        truthyStr cfg.model_init = true →
        decideInit cfg output_dir fileExists fillinFn
          = InitDecision.fatalModelInit)
    ∧ ((truthyNat cfg.checkpoint_steps = false ∨
          fileExists (output_dir ++ "/checkpoint.npz") = false) →
        truthyStr cfg.resume = false →
        truthyStr cfg.model_init = false →
        decideInit cfg output_dir fileExists fillinFn
          = InitDecision.trainFromScratch) := by
  refine ⟨?_, ?_, ?_, ?_⟩
  · intro h1 h2
    rw [decideInit, rcp_output_wins cfg output_dir fileExists fillinFn h1 h2]
    simp [bne_iff_ne, output_ckpt_path_ne_empty output_dir]
  · intro h1 h2 h3
    rw [decideInit, rcp_resume_fallback cfg output_dir fileExists fillinFn h1 h2]
    simp [bne_iff_ne, h3]
  · intro h1 h2 h3
    rw [decideInit, rcp_none cfg output_dir fileExists fillinFn h1 h2]
    simp [h3]
  · intro h1 h2 h3
    rw [decideInit, rcp_none cfg output_dir fileExists fillinFn h1 h2]
    simp [h3]

theorem claim_C2_resume_precedence_witness :
    decideInit ⟨some 100, some "/other/path", none⟩ "out" (fun _ => true) id
      = InitDecision.resumeFrom ("out" ++ "/checkpoint.npz") :=
  (claim_C2_resume_precedence ⟨some 100, some "/other/path", none⟩ "out"
    (fun _ => true) id).1 rfl rfl

/-- **C9**: precedence step (a) is conditional on checkpointing being
enabled: with `checkpoint_steps` unset (or zero) the decision is
independent of whether `checkpoint.npz` exists in the output directory
(the active save path is never constructed), and `resume_checkpoint_path`
falls through to the configured resume path or `none`. -/
theorem claim_C9_output_ckpt_needs_checkpoint_steps (cfg : ResumeConfig)
    (output_dir : String) (fillinFn : String → String)
    (h : truthyNat cfg.checkpoint_steps = false) :
    (∀ fe fe' : String → Bool,
      decideInit cfg output_dir fe fillinFn = decideInit cfg output_dir fe' fillinFn)
    ∧ (∀ fe : String → Bool,
      resume_checkpoint_path cfg output_dir fe fillinFn
        = if truthyStr cfg.resume then some (fillinFn (cfg.resume.getD "")) else none) := by
  have hsave : save_checkpoint_path cfg output_dir = none := by
    simp [save_checkpoint_path, h]
  constructor
  · intro fe fe'
    simp [decideInit, resume_checkpoint_path, hsave]
  · intro fe
    simp [resume_checkpoint_path, hsave]

theorem claim_C9_output_ckpt_needs_checkpoint_steps_witness :
    decideInit ⟨none, some "/other", none⟩ "out" (fun _ => true) id
      = decideInit ⟨none, some "/other", none⟩ "out" (fun _ => false) id :=
  (claim_C9_output_ckpt_needs_checkpoint_steps ⟨none, some "/other", none⟩
    "out" id rfl).1 (fun _ => true) (fun _ => false)

/-! ## Checkpoint-write serialization (`sngp.py` lines 487–518)

At a checkpoint boundary the loop first calls
`u.checkpointing_timeout(checkpoint_writer, config.get('checkpoint_timeout', 1))`
and only then starts the next asynchronous save with
`pool.apply_async(u.save_checkpoint, ...)`.

Modelled from the spec: `u.checkpointing_timeout` (defined outside this
repository) blocks, with the given timeout, until the previously
started asynchronous save has completed.  We record the I/O actions a
training run emits at checkpoint boundaries and check that every save
start is preceded by a wait since the previous save start. -/

inductive CkptAction where
  /-- Blocking wait (with timeout) for the pending asynchronous save. -/
  | waitPrev (timeout : ℚ)
  /-- Start of an asynchronous checkpoint save at a step. -/
  | startSave (step : ℕ)
deriving DecidableEq

/-- The checkpoint-related actions of one loop iteration (lines
487–518): when `u.itstime(step, checkpoint_steps, total_steps)` fires,
the loop waits for the pending writer and then starts a new save. -/
def checkpointStepActions (doCheckpoint : ℕ → Bool) (timeout : ℚ) (step : ℕ) :
    List CkptAction :=
  if doCheckpoint step then
    [CkptAction.waitPrev timeout, CkptAction.startSave step]
  else []

/-- The steps of the training loop: `first_step + 1, ..., total_steps`. -/
def stepsRange (first_step total_steps : ℕ) : List ℕ :=
  (List.range (total_steps - first_step)).map (fun i => first_step + 1 + i)

/-- The checkpoint I/O trace of a training run.  The timeout passed to
every wait is `config.get('checkpoint_timeout', 1)`. -/
def trainCkptTrace (doCheckpoint : ℕ → Bool) (checkpoint_timeout : Option ℚ)
    (first_step total_steps : ℕ) : List CkptAction :=
  (stepsRange first_step total_steps).flatMap
    (checkpointStepActions doCheckpoint (checkpoint_timeout.getD 1))

/-- Serialization checker: scanning the trace with a flag recording
whether a save has been started without a completed wait since, a
`startSave` is only legal when no save is pending — i.e. at most one
asynchronous write is ever in flight. -/
def ckptSerialized : List CkptAction → Bool → Bool
  | [], _ => true
  | CkptAction.waitPrev _ :: rest, _ => ckptSerialized rest false
  | CkptAction.startSave _ :: rest, pending => !pending && ckptSerialized rest true

lemma ckptSerialized_flatMap (doCheckpoint : ℕ → Bool) (timeout : ℚ) :
    ∀ (steps : List ℕ) (b : Bool),
      ckptSerialized (steps.flatMap (checkpointStepActions doCheckpoint timeout)) b = true := by
  intro steps
  induction steps with
  | nil => intro b; rfl
  | cons s rest ih =>
    intro b
    rw [List.flatMap_cons]
    by_cases hs : doCheckpoint s = true
    · simp only [checkpointStepActions, if_pos hs, List.cons_append, List.nil_append]
      show ckptSerialized (CkptAction.startSave s
        :: (rest.flatMap (checkpointStepActions doCheckpoint timeout))) false = true
      show (!false && ckptSerialized
        (rest.flatMap (checkpointStepActions doCheckpoint timeout)) true) = true
      rw [ih true]
      rfl
    · rw [Bool.not_eq_true] at hs
      have hempty : checkpointStepActions doCheckpoint timeout s = [] := by
        simp [checkpointStepActions, hs]
      rw [hempty, List.nil_append]
      exact ih b

/-- **C3**: at most one asynchronous checkpoint write is ever in
flight: at every checkpoint boundary the loop blocks on the pending
writer (with timeout `config.get('checkpoint_timeout', 1)`, default 1)
before starting a new asynchronous save, so in the emitted I/O trace a
save is never started while another is pending, and every wait uses
the configured timeout with default 1. -/
theorem claim_C3_ckpt_saves_serialized (doCheckpoint : ℕ → Bool)
    (checkpoint_timeout : Option ℚ) (first_step total_steps : ℕ) :
    ckptSerialized (trainCkptTrace doCheckpoint checkpoint_timeout
        first_step total_steps) false = true
    ∧ ∀ t : ℚ, CkptAction.waitPrev t
        ∈ trainCkptTrace doCheckpoint checkpoint_timeout first_step total_steps →
        t = checkpoint_timeout.getD 1 := by
  constructor
  · exact ckptSerialized_flatMap doCheckpoint (checkpoint_timeout.getD 1)
      (stepsRange first_step total_steps) false
  · intro t ht
    rw [trainCkptTrace, List.mem_flatMap] at ht
    obtain ⟨s, _, hmem⟩ := ht
    by_cases hs : doCheckpoint s = true
    · rw [checkpointStepActions, if_pos hs] at hmem
      simp only [List.mem_cons, List.not_mem_nil, or_false] at hmem
      rcases hmem with h | h
      · injection h with h1
      · simp at h
    · rw [Bool.not_eq_true] at hs
      rw [checkpointStepActions, if_neg (by simp [hs])] at hmem
      simp at hmem

theorem claim_C3_ckpt_saves_serialized_witness :
    ckptSerialized (trainCkptTrace (fun s => s % 2 = 0) none 0 4) false = true
    ∧ ((CkptAction.waitPrev 1 ∈ trainCkptTrace (fun s => s % 2 = 0) none 0 4) →
        (1 : ℚ) = (none : Option ℚ).getD 1) := by
  have h := claim_C3_ckpt_saves_serialized (fun s => decide (s % 2 = 0)) none 0 4
  exact ⟨h.1, h.2 1⟩

/-! ## Validation evaluation loop metrics (`sngp.py` lines 531–549)

The main loop accumulates `(ncorrect, loss, nseen)` over `val_steps`
batches and then computes `val_loss = loss / nseen` and
`ncorrect / nseen` with no guard on `nseen`.  `pydiv` models a Python
division whose result is not a valid number when the denominator is
zero (`ZeroDivisionError` for ints, `nan` for numpy floats). -/

/-- Division as performed by the evaluation loop: a zero denominator
produces no valid value. -/
def pydiv (a b : ℚ) : Except String ℚ :=
  if b = 0 then Except.error "ZeroDivisionError" else Except.ok (a / b)

/-- Componentwise accumulation `ncorrect += ...; loss += ...; nseen += ...`. -/
def add3 (a b : ℚ × ℚ × ℚ) : ℚ × ℚ × ℚ :=
  (a.1 + b.1, a.2.1 + b.2.1, a.2.2 + b.2.2)

/-- Lines 535–549: fold the per-batch `(ncorrect, loss, nseen)` results
starting from `(0, 0, 0)`, then divide: `val_loss = loss / nseen` and
precision `ncorrect / nseen`, exactly as the code, with no zero guard. -/
def valLoopMetrics (batchResults : List (ℚ × ℚ × ℚ)) : Except String (ℚ × ℚ) := do
  let totals := batchResults.foldl add3 (0, 0, 0)
  let val_loss ← pydiv totals.2.1 totals.2.2
  let prec ← pydiv totals.1 totals.2.2
  return (prec, val_loss)

/-- **C4 counterexample**: the claim says the divisions
`loss_sum/count` and `correct/count` are guarded against a zero masked
example count, but the code divides unconditionally: with an empty
validation split (`val_steps = 0`, so no batches), the accumulators
stay `(0, 0, 0)` and `val_loss = loss / nseen` divides zero by zero. -/
theorem claim_C4_counterexample :
    valLoopMetrics [] = Except.error "ZeroDivisionError" := rfl

/-- **C4 amended**: the evaluation-loop division is *not* guarded:
whenever the accumulated masked example count is zero — an empty
validation split, or every batch fully masked out — the computation of
the mean loss and accuracy divides by zero and produces no valid
number (`ZeroDivisionError` for Python ints, `nan` for numpy floats). -/
theorem claim_C4_amended_division_unguarded (batchResults : List (ℚ × ℚ × ℚ))
    (h : (batchResults.foldl add3 (0, 0, 0)).2.2 = 0) :
    valLoopMetrics batchResults = Except.error "ZeroDivisionError" := by
  simp only [valLoopMetrics, pydiv, h, if_pos]
  rfl

theorem claim_C4_amended_division_unguarded_witness :
    valLoopMetrics [(0, 0, 0)] = Except.error "ZeroDivisionError" :=
  claim_C4_amended_division_unguarded [(0, 0, 0)] (by norm_num [add3])

/-! ## Per-batch evaluation (`evaluation_fn`, `sngp.py` lines 289–305)

`applyModel` abstracts `model.apply(..., train=False)` returning the
per-image logits, and `lossFn` the per-example loss
(`getattr(u, config.get('loss', 'sigmoid_xent'))(..., reduction=False)`).
A batch is a list of per-replica example lists; `jax.lax.psum` over
the batch axis is the total sum over all replicas. -/

structure EvalExample (Img : Type) where
  image : Img
  labels : List ℚ
  mask : ℚ

/-- `jnp.max` over a label row. -/
def jnpMax : List ℚ → ℚ
  | [] => 0
  | x :: xs => xs.foldl max x

/-- `jnp.argmax`: index of the first occurrence of the maximum. -/
def jnpArgmaxAux : List ℚ → ℚ → ℕ → ℕ → ℕ
  | [], _, _, best => best
  | x :: xs, bv, i, best =>
    if bv < x then jnpArgmaxAux xs x (i + 1) i
    else jnpArgmaxAux xs bv (i + 1) best

def jnpArgmax : List ℚ → ℕ
  | [] => 0
  | x :: xs => jnpArgmaxAux xs x 1 0

/-- One example's contribution inside `evaluation_fn`:
`mask *= labels.max(axis=1)`, then
`(top1_correct * mask, loss * mask, mask)` — i.e. the per-example
summands of `ncorrect`, `loss` and `n`. -/
def evalRow {P St Img : Type} (applyModel : P → St → Img → List ℚ)
    (lossFn : List ℚ → List ℚ → ℚ) (params : P) (states : St)
    (ex : EvalExample Img) : ℚ × ℚ × ℚ :=
  let mask := ex.mask * jnpMax ex.labels
  let logits := applyModel params states ex.image
  let losses := lossFn logits ex.labels
  let top1_idx := jnpArgmax logits
  let top1_correct := ex.labels.getD top1_idx 0
  (top1_correct * mask, losses * mask, mask)

/-- `evaluation_fn` (lines 289–305): the `psum` collective over the
batch axis makes `(ncorrect, loss, n)` the total of the per-example
contributions over every replica. -/
def evaluation_fn {P St Img : Type} (applyModel : P → St → Img → List ℚ)
    (lossFn : List ℚ → List ℚ → ℚ) (params : P) (states : St)
    (replicas : List (List (EvalExample Img))) : ℚ × ℚ × ℚ :=
  (replicas.map
    (fun batch => (batch.map (evalRow applyModel lossFn params states)).foldl
      add3 (0, 0, 0))).foldl add3 (0, 0, 0)

lemma add3_zero (a : ℚ × ℚ × ℚ) : add3 a (0, 0, 0) = a := by
  cases a with
  | mk x yz => cases yz with
    | mk y z => simp [add3]

lemma zero_add3 (a : ℚ × ℚ × ℚ) : add3 (0, 0, 0) a = a := by
  cases a with
  | mk x yz => cases yz with
    | mk y z => simp [add3]

lemma add3_assoc (a b c : ℚ × ℚ × ℚ) : add3 (add3 a b) c = add3 a (add3 b c) := by
  simp [add3]
  refine ⟨by ring, by ring, by ring⟩

lemma foldl_add3_shift : ∀ (xs : List (ℚ × ℚ × ℚ)) (e : ℚ × ℚ × ℚ),
    xs.foldl add3 e = add3 e (xs.foldl add3 (0, 0, 0)) := by
  intro xs
  induction xs with
  | nil => intro e; exact (add3_zero e).symm
  | cons x xs ih =>
    intro e
    show (xs.foldl add3 (add3 e x)) = _
    rw [ih (add3 e x)]
    show _ = add3 e (xs.foldl add3 (add3 (0, 0, 0) x))
    rw [ih (add3 (0, 0, 0) x), zero_add3, add3_assoc]

lemma foldl_max_zero : ∀ xs : List ℚ, (∀ l ∈ xs, l = 0) → xs.foldl max (0 : ℚ) = 0 := by
  intro xs
  induction xs with
  | nil => intro _; rfl
  | cons x xs ih =>
    intro h
    have hx : x = 0 := h x (by simp)
    show (xs.foldl max (max 0 x)) = 0
    rw [hx, max_self]
    exact ih (fun l hl => h l (by simp [hl]))

lemma jnpMax_all_zero (labels : List ℚ) (h : ∀ l ∈ labels, l = 0) :
    jnpMax labels = 0 := by
  cases labels with
  | nil => rfl
  | cons x xs =>
    have hx : x = 0 := h x (by simp)
    show xs.foldl max x = 0
    rw [hx]
    exact foldl_max_zero xs (fun l hl => h l (by simp [hl]))

/-- **C6**: for every evaluation batch the validity mask is
additionally zeroed on entries whose labels are all zero; the masked
correct count, masked loss sum and masked example count are
accumulated by the collective sum across replicas; the final metrics
are `accuracy = correct/count` and `mean loss = loss_sum/count`; and a
batch of 10 entries with 8 valid, 6 of them correct, yields accuracy
exactly `6/8 = 3/4`. -/
theorem claim_C6_eval_metrics {P St Img : Type}
    (applyModel : P → St → Img → List ℚ) (lossFn : List ℚ → List ℚ → ℚ)
    (params : P) (states : St) :
    (∀ ex : EvalExample Img, (∀ l ∈ ex.labels, l = 0) →
      evalRow applyModel lossFn params states ex = (0, 0, 0))
    ∧ (∀ (rep : List (EvalExample Img)) (reps : List (List (EvalExample Img))),
      evaluation_fn applyModel lossFn params states (rep :: reps)
        = add3 ((rep.map (evalRow applyModel lossFn params states)).foldl add3 (0, 0, 0))
            (evaluation_fn applyModel lossFn params states reps))
    ∧ (∀ batches : List (ℚ × ℚ × ℚ),
      (batches.foldl add3 (0, 0, 0)).2.2 ≠ 0 →
      valLoopMetrics batches = Except.ok
        ((batches.foldl add3 (0, 0, 0)).1 / (batches.foldl add3 (0, 0, 0)).2.2,
         (batches.foldl add3 (0, 0, 0)).2.1 / (batches.foldl add3 (0, 0, 0)).2.2))
    ∧ evaluation_fn (fun (_ : Unit) (_ : Unit) (img : List ℚ) => img)
        (fun _ _ => (1 : ℚ)) () ()
        [[⟨[3, 1], [1, 0], 1⟩, ⟨[3, 1], [1, 0], 1⟩, ⟨[3, 1], [1, 0], 1⟩,
          ⟨[3, 1], [1, 0], 1⟩, ⟨[3, 1], [1, 0], 1⟩, ⟨[3, 1], [1, 0], 1⟩,
          ⟨[3, 1], [0, 1], 1⟩, ⟨[3, 1], [0, 1], 1⟩,
          ⟨[3, 1], [1, 0], 0⟩, ⟨[3, 1], [1, 0], 0⟩]] = (6, 8, 8)
    ∧ valLoopMetrics [(6, 8, 8)] = Except.ok (3 / 4, 1) := by
  refine ⟨?_, ?_, ?_, ?_, ?_⟩
  · intro ex h
    have hm : jnpMax ex.labels = 0 := jnpMax_all_zero _ h
    simp [evalRow, hm]
  · intro rep reps
    show (List.map _ (rep :: reps)).foldl add3 (0, 0, 0) = _
    rw [List.map_cons, List.foldl_cons, foldl_add3_shift, zero_add3]
    rfl
  · intro batches hne
    simp only [valLoopMetrics, pydiv]
    rw [if_neg hne, if_neg hne]
    rfl
  · norm_num [evaluation_fn, evalRow, add3, jnpMax, jnpArgmax, jnpArgmaxAux,
      max_def, List.getD]
  · norm_num [valLoopMetrics, pydiv, add3]
    rfl

theorem claim_C6_eval_metrics_witness :
    evalRow (fun (_ : Unit) (_ : Unit) (img : List ℚ) => img)
      (fun _ _ => (1 : ℚ)) () () ⟨[2, 5], [0, 0], 1⟩ = (0, 0, 0) :=
  (claim_C6_eval_metrics (fun (_ : Unit) (_ : Unit) (img : List ℚ) => img)
    (fun _ _ => (1 : ℚ)) () ()).1 ⟨[2, 5], [0, 0], 1⟩
    (by intro l hl; fin_cases hl <;> rfl)

/-! ## Weight decay in the update step (`update_fn`, `sngp.py` lines 376–383)

```
decay_rules = config.get('weight_decay', []) or []
if isinstance(decay_rules, numbers.Number):
  decay_rules = [('.*kernel.*', decay_rules)]
sched_m = lr/config.lr.base if config.get('weight_decay_decouple') else lr
def decay_fn(v, wd):
  return (1.0 - sched_m * wd) * v
opt = opt.replace(target=u.tree_map_with_regex(decay_fn, opt.target, decay_rules))
```

The parameter tree is modelled as a flat list of (flattened name, value)
leaves; `matchRe pat name` abstracts the regular-expression match. -/

/-- The `weight_decay` config entry: absent/falsy, a single number, or
an explicit list of (pattern, coefficient) rules. -/
inductive WeightDecayConfig where
  | unset
  | number (wd : ℚ)
  | rules (rs : List (String × ℚ))

/-- Lines 376–378: `config.get('weight_decay', []) or []` followed by
the `numbers.Number` normalization to the default `.*kernel.*` rule
(a falsy number, `0`, is replaced by `[]` by the `or`). -/
def normalizeDecayRules : WeightDecayConfig → List (String × ℚ)
  | WeightDecayConfig.unset => []
  | WeightDecayConfig.number wd =>
    if wd = 0 then [] else [(".*kernel.*", wd)]
  | WeightDecayConfig.rules rs => rs

/-- Modelled from the spec: `u.tree_map_with_regex f tree rules` (defined
outside this repository) applies `f v wd` to every leaf whose flattened
name matches a rule's regular expression, using the first matching
rule, and leaves every other leaf unchanged. -/
def tree_map_with_regex (f : ℚ → ℚ → ℚ) (target : List (String × ℚ))
    (rules : List (String × ℚ)) (matchRe : String → String → Bool) :
    List (String × ℚ) :=
  target.map (fun nv =>
    match rules.find? (fun r => matchRe r.1 nv.1) with
    | some r => (nv.1, f nv.2 r.2)
    | none => nv)

/-- Lines 376–383: the full weight-decay step applied to the optimizer
target after the gradient update. -/
def applyWeightDecay (weight_decay_decouple : Bool) (lr lr_base : ℚ)
    (wdConfig : WeightDecayConfig) (matchRe : String → String → Bool)
    (target : List (String × ℚ)) : List (String × ℚ) :=
  let decay_rules := normalizeDecayRules wdConfig
  let sched_m := if weight_decay_decouple then lr / lr_base else lr
  tree_map_with_regex (fun v wd => (1 - sched_m * wd) * v) target decay_rules matchRe

/-- **C5**: weight decay scales exactly the parameters whose name
matches a configured rule by `(1 - effective_rate * wd)`, with
`effective_rate = lr / lr_base` when `weight_decay_decouple` is set
and `lr` otherwise; a parameter matching no rule (e.g. a bias under
the default numeric config's `.*kernel.*` pattern) is unchanged. -/
theorem claim_C5_weight_decay (weight_decay_decouple : Bool) (lr lr_base : ℚ)
    (wdConfig : WeightDecayConfig) (matchRe : String → String → Bool)
    (target : List (String × ℚ)) (i : ℕ) (p : String × ℚ)
    (hp : target.get? i = some p) :
    (applyWeightDecay weight_decay_decouple lr lr_base wdConfig matchRe target).get? i
      = some (match (normalizeDecayRules wdConfig).find? (fun r => matchRe r.1 p.1) with
        | some r =>
          (p.1, (1 - (if weight_decay_decouple then lr / lr_base else lr) * r.2) * p.2)
        | none => p) := by
  rw [applyWeightDecay, tree_map_with_regex, List.get?_map, hp]
  rfl

theorem claim_C5_weight_decay_witness :
    (applyWeightDecay false (1/10) 1 (WeightDecayConfig.number (1/2))
      (fun pat name => pat == ".*kernel.*" && name == "dense/kernel")
      [("dense/kernel", 2), ("dense/bias", 3)]).get? 1
      = some ("dense/bias", 3) := by
  have h := claim_C5_weight_decay false (1/10) 1 (WeightDecayConfig.number (1/2))
    (fun pat name => pat == ".*kernel.*" && name == "dense/kernel")
    [("dense/kernel", 2), ("dense/bias", 3)] 1 ("dense/bias", 3) rfl
  simpa [normalizeDecayRules, List.find?] using h

/-! ## Startup configuration checks (`main`, `sngp.py` lines 151–163)

Lines 151–156 (reached before any dataset, model or loop setup):

```
if config.get('keep_checkpoint_steps'):
  assert config.get('checkpoint_steps'), 'Specify `checkpoint_steps`.'
  assert config.keep_checkpoint_steps % config.checkpoint_steps == 0
```

Lines 158–163:

```
batch_size_eval = config.get('batch_size_eval', batch_size)
if (batch_size % jax.device_count() != 0 or
    batch_size_eval % jax.device_count() != 0):
  raise ValueError(...)
```
-/

structure StartupConfig where
  keep_checkpoint_steps : Option ℕ
  checkpoint_steps : Option ℕ
  batch_size : ℕ
  batch_size_eval : Option ℕ

/-- Lines 151–156: the `keep_checkpoint_steps` asserts. -/
def keepCheckpointCheck (keep checkpoint : Option ℕ) : Except String Unit :=
  if truthyNat keep then
    if truthyNat checkpoint then
      if keep.getD 0 % checkpoint.getD 0 = 0 then Except.ok ()
      else Except.error "AssertionError: keep_checkpoint_steps should be divisible by checkpoint_steps"
    else Except.error "AssertionError: Specify checkpoint_steps"
  else Except.ok ()

/-- Lines 158–163: the batch-size divisibility `ValueError`. -/
def batchDivisibilityCheck (batch_size batch_size_eval device_count : ℕ) :
    Except String Unit :=
  if batch_size % device_count ≠ 0 ∨ batch_size_eval % device_count ≠ 0 then
    Except.error "ValueError: Batch sizes must be divisible by device number"
  else Except.ok ()

/-- The startup checks in source order: the `keep_checkpoint_steps`
asserts (lines 151–156), then the batch-size check (lines 158–163). -/
def startupChecks (cfg : StartupConfig) (device_count : ℕ) : Except String Unit := do
  let _ ← keepCheckpointCheck cfg.keep_checkpoint_steps cfg.checkpoint_steps
  batchDivisibilityCheck cfg.batch_size (cfg.batch_size_eval.getD cfg.batch_size)
    device_count

/-- Startup followed by the training loop: a failed startup check
raises before any training step runs (no checkpoint I/O is emitted). -/
def mainCkptTrace (cfg : StartupConfig) (device_count : ℕ)
    (doCheckpoint : ℕ → Bool) (checkpoint_timeout : Option ℚ)
    (first_step total_steps : ℕ) : Except String (List CkptAction) := do
  let _ ← startupChecks cfg device_count
  pure (trainCkptTrace doCheckpoint checkpoint_timeout first_step total_steps)

/-- **C7**: a batch size not divisible by the accumulation factor
(with factor `> 1`) makes the accumulator fail its assert, and a
global train or eval batch size not divisible by the device count
raises a fatal `ValueError` at startup, before any training step. -/
theorem claim_C7_divisibility_fatal {P S I L G : Type}
    [AddCommMonoid G] [Module ℚ G] :
    (∀ (f : P → S → List I → List L → (ℚ × S) × G) (params : P) (states : S)
        (images : List I) (labels : List L) (n : ℕ),
      1 < n → images.length % n ≠ 0 →
      accumulate_gradient_with_states f params states images labels (some n) = none)
    ∧ (∀ (cfg : StartupConfig) (device_count : ℕ),
      (cfg.batch_size % device_count ≠ 0
        ∨ (cfg.batch_size_eval.getD cfg.batch_size) % device_count ≠ 0) →
      ∃ e, startupChecks cfg device_count = Except.error e
        ∧ ∀ (doCkpt : ℕ → Bool) (cto : Option ℚ) (fs ts : ℕ),
            mainCkptTrace cfg device_count doCkpt cto fs ts = Except.error e) := by
  constructor
  · intro f params states images labels n hn hmod
    simp [accumulate_gradient_with_states, hn, hmod]
  · intro cfg dc h
    cases hk : keepCheckpointCheck cfg.keep_checkpoint_steps cfg.checkpoint_steps with
    | error e =>
      refine ⟨e, ?_, ?_⟩
      · show (keepCheckpointCheck cfg.keep_checkpoint_steps cfg.checkpoint_steps
          >>= fun _ => _) = Except.error e
        rw [hk]
        rfl
      · intro doCkpt cto fs ts
        show (startupChecks cfg dc >>= fun _ => _) = Except.error e
        have hs : startupChecks cfg dc = Except.error e := by
          show (keepCheckpointCheck cfg.keep_checkpoint_steps cfg.checkpoint_steps
            >>= fun _ => _) = Except.error e
          rw [hk]
          rfl
        rw [hs]
        rfl
    | ok u =>
      refine ⟨"ValueError: Batch sizes must be divisible by device number", ?_, ?_⟩
      · show (keepCheckpointCheck cfg.keep_checkpoint_steps cfg.checkpoint_steps
          >>= fun _ => _) = _
        rw [hk]
        show batchDivisibilityCheck cfg.batch_size
          (cfg.batch_size_eval.getD cfg.batch_size) dc = _
        rw [batchDivisibilityCheck, if_pos h]
      · intro doCkpt cto fs ts
        have hs : startupChecks cfg dc
            = Except.error "ValueError: Batch sizes must be divisible by device number" := by
          show (keepCheckpointCheck cfg.keep_checkpoint_steps cfg.checkpoint_steps
            >>= fun _ => _) = _
          rw [hk]
          show batchDivisibilityCheck cfg.batch_size
            (cfg.batch_size_eval.getD cfg.batch_size) dc = _
          rw [batchDivisibilityCheck, if_pos h]
        show (startupChecks cfg dc >>= fun _ => _) = _
        rw [hs]
        rfl

theorem claim_C7_divisibility_fatal_witness :
    accumulate_gradient_with_states
      (fun (_ : ℚ) (s : ℚ) (imgs _lbls : List ℚ) => ((imgs.sum, s), (0 : ℚ)))
      0 0 [1, 2, 3] [4, 5, 6] (some 2) = none :=
  (claim_C7_divisibility_fatal).1
    (fun (_ : ℚ) (s : ℚ) (imgs _lbls : List ℚ) => ((imgs.sum, s), (0 : ℚ)))
    0 0 [1, 2, 3] [4, 5, 6] 2 (by decide) (by decide)

/-- **C10**: if `keep_checkpoint_steps` is configured (truthy), startup
fails unless `checkpoint_steps` is also configured and
`keep_checkpoint_steps` is an exact multiple of `checkpoint_steps`;
the asserts run at lines 151–156, before the training loop, so a
violation yields an error with no training actions emitted. -/
theorem claim_C10_keep_checkpoint_steps_validated (cfg : StartupConfig)
    (device_count : ℕ)
    (hkeep : truthyNat cfg.keep_checkpoint_steps = true) :
    ((truthyNat cfg.checkpoint_steps = false
        ∨ ¬ (cfg.keep_checkpoint_steps.getD 0) % (cfg.checkpoint_steps.getD 0) = 0) →
      ∃ e, startupChecks cfg device_count = Except.error e
        ∧ ∀ (doCkpt : ℕ → Bool) (cto : Option ℚ) (fs ts : ℕ),
            mainCkptTrace cfg device_count doCkpt cto fs ts = Except.error e)
    ∧ (truthyNat cfg.checkpoint_steps = true →
        (cfg.keep_checkpoint_steps.getD 0) % (cfg.checkpoint_steps.getD 0) = 0 →
        keepCheckpointCheck cfg.keep_checkpoint_steps cfg.checkpoint_steps
          = Except.ok ()) := by
  constructor
  · intro hbad
    have hk : ∃ e, keepCheckpointCheck cfg.keep_checkpoint_steps cfg.checkpoint_steps
        = Except.error e := by
      rcases hbad with h | h
      · exact ⟨_, by rw [keepCheckpointCheck, if_pos hkeep, h]; rfl⟩
      · by_cases hc : truthyNat cfg.checkpoint_steps = true
        · exact ⟨_, by rw [keepCheckpointCheck, if_pos hkeep, hc, if_pos rfl,
            if_neg h]⟩
        · rw [Bool.not_eq_true] at hc
          exact ⟨_, by rw [keepCheckpointCheck, if_pos hkeep, hc]; rfl⟩
    obtain ⟨e, he⟩ := hk
    refine ⟨e, ?_, ?_⟩
    · show (keepCheckpointCheck cfg.keep_checkpoint_steps cfg.checkpoint_steps
        >>= fun _ => _) = Except.error e
      rw [he]
      rfl
    · intro doCkpt cto fs ts
      have hs : startupChecks cfg device_count = Except.error e := by
        show (keepCheckpointCheck cfg.keep_checkpoint_steps cfg.checkpoint_steps
          >>= fun _ => _) = Except.error e
        rw [he]
        rfl
      show (startupChecks cfg device_count >>= fun _ => _) = Except.error e
      rw [hs]
      rfl
  · intro hc hdvd
    rw [keepCheckpointCheck, if_pos hkeep, hc, if_pos rfl, if_pos hdvd]

theorem claim_C10_keep_checkpoint_steps_validated_witness :
    ∃ e, startupChecks ⟨some 300, some 200, 8, none⟩ 1 = Except.error e
      ∧ ∀ (doCkpt : ℕ → Bool) (cto : Option ℚ) (fs ts : ℕ),
          mainCkptTrace ⟨some 300, some 200, 8, none⟩ 1 doCkpt cto fs ts
            = Except.error e :=
  (claim_C10_keep_checkpoint_steps_validated ⟨some 300, some 200, 8, none⟩ 1
    rfl).1 (Or.inr (by decide))
